import Mathlib

/-!
Verification of the XRF protocol driver (xrf.py, xrf-api.py).

The definitions below are a shallow embedding of the Python source:
bytes are `Nat` values (0-255 on the wire), byte strings are `List Nat`,
fallible code (code that can raise an exception, e.g. out-of-range
indexing) returns `Option`, and the mutable device registry is passed
explicitly.  Line numbers refer to src/xrf.py unless stated otherwise.
-/

namespace Xrf

/-! ## Transport Framer (xrf.py, `XrfCommsThread.parse_buff`, lines 272-293) -/

/-- Embeds class `UartPacket`: one transport frame with its tag byte
(`type`), declared length byte and accumulated payload. -/
structure UartFrame where
  type : Nat
  length : Nat
  payload : List Nat
deriving DecidableEq, Repr

/-- State of the framer between bytes: `idle` is `UMSGST_IDLE` (awaiting a
tag byte), `awaitLen t` is `UMSGST_LEN` with the current packet holding tag
`t`, and `awaitData t l acc` is `UMSGST_DATA` with declared length `l` and
payload collected so far `acc`. -/
inductive FramerState where
  | idle : FramerState
  | awaitLen (tag : Nat) : FramerState
  | awaitData (tag : Nat) (length : Nat) (payload : List Nat) : FramerState
deriving DecidableEq, Repr

/-- One iteration of the `for` loop body of `parse_buff` (lines 276-292):
consume one byte, returning the next state and the frames pushed to
`rxQueue` (zero or one).  The tag comparison on line 278 recognizes
`UMSG_RXPKT` (82), `UMSG_TXPKT` (84), `UMSG_CMD` (67), `UMSG_LOG` (76).
The completion test on line 288 is `len(payload) >= length - 2` computed
over the integers, exactly as Python does. -/
def parseStep : FramerState → Nat → FramerState × List UartFrame
  | .idle, ch =>
      if ch = 82 ∨ ch = 84 ∨ ch = 67 ∨ ch = 76 then (.awaitLen ch, []) else (.idle, [])
  | .awaitLen t, ch => (.awaitData t ch [], [])
  | .awaitData t l acc, ch =>
      let acc2 := acc ++ [ch]
      if (acc2.length : Int) ≥ (l : Int) - 2 then (.idle, [⟨t, l, acc2⟩])
      else (.awaitData t l acc2, [])

/-- Embeds `parse_buff` (lines 272-293): fold `parseStep` over the buffer,
collecting the emitted frames in order. -/
def parse_buff : FramerState → List Nat → FramerState × List UartFrame
  | s, [] => (s, [])
  | s, ch :: rest =>
      let st := parseStep s ch
      let res := parse_buff st.1 rest
      (res.1, st.2 ++ res.2)

/-- Feeding the framer a sequence of chunks one call after another,
threading the retained state (`self.state` / `self.rxPkt`) between calls,
exactly as the Link Pump loop does with successive `serial.read` chunks. -/
def parseChunks : FramerState → List (List Nat) → FramerState × List UartFrame
  | s, [] => (s, [])
  | s, c :: cs =>
      let r1 := parse_buff s c
      let r2 := parseChunks r1.1 cs
      (r2.1, r1.2 ++ r2.2)

/-! ## Device records and registry (xrf.py, `XrfAPI`, lines 477-713) -/

/-- A device record: the field bag the Python code stores per device
(`device` dict, lines 641-676), with `none` for fields never written. -/
structure DeviceRecord where
  model : Option String := none
  group : Option Nat := none
  hopcount : Option Nat := none
  channel : Option Nat := none
  fwversion : Option Nat := none
  lastmotion : Option String := none
  lastmotiontype : Option String := none
deriving DecidableEq, Repr

instance : Inhabited DeviceRecord := ⟨{}⟩

/-- The `discoveredDevices` dict, as an insertion-ordered association
list keyed by the lowercase-hex uid string. -/
abbrev Registry := List (String × DeviceRecord)

/-- Dictionary lookup (`dict.get`). -/
def lookupReg {α : Type} : List (String × α) → String → Option α
  | [], _ => none
  | (k, v) :: rest, key => if k = key then some v else lookupReg rest key

/-- Dictionary store (`dict[key] = value`): replace in place when the key
exists, append otherwise (insertion order preserved). -/
def setReg {α : Type} : List (String × α) → String → α → List (String × α)
  | [], key, v => [(key, v)]
  | (k, w) :: rest, key, v =>
      if k = key then (key, v) :: rest else (k, w) :: setReg rest key v

/-- Lowercase hexadecimal digit, as produced by Python `%x`. -/
def hexDigit (n : Nat) : Char :=
  if n < 10 then Char.ofNat (48 + n) else Char.ofNat (87 + n)

/-- Python `"%02x" % b` for a byte value `b < 256`: exactly two lowercase
hex digits. -/
def byteToHex (b : Nat) : String :=
  String.mk [hexDigit (b / 16 % 16), hexDigit (b % 16)]

/-- Embeds `"".join("%02x" % b for b in uid)` (lines 633, 654). -/
def uidToStr (uid : List Nat) : String :=
  String.join (uid.map byteToHex)

/-- Embeds `XrfAPI.modelToString` (lines 594-606). -/
def modelToString (model : Nat) : String :=
  if model = 0 then "Athena"
  else if model = 1 then "AthenaX"
  else if model = 2 then "Artemis"
  else if model = 4 then "Artemis XL"
  else if model = 6 then "USB Dongle"
  else toString model

/-! ## Radio packet decode (xrf.py, `XrfAPI.parseRxPacket`, lines 608-682) -/

/-- The header fields extracted on lines 612-618.  Note `unicast` is
computed by the source as `msgheader | 0x80` (line 614). -/
structure RxHeader where
  length : Nat
  msgheader : Nat
  unicast : Nat
  msgtype : Nat
  msgparam : Nat
  hopcount : Nat
  group : Nat
deriving DecidableEq, Repr

/-- Embeds lines 612-618 of `parseRxPacket`: the unconditional reads of
`payload[0]` through `payload[3]` and the bit extraction from the header
byte.  A read past the end of the buffer raises `IndexError` in Python,
modelled as `none`. -/
def parseRxHeader (payload : List Nat) : Option RxHeader :=
  payload[0]?.bind fun length =>
  payload[1]?.bind fun msgheader =>
  payload[2]?.bind fun hopcount =>
  payload[3]?.bind fun group =>
  some { length := length, msgheader := msgheader,
         unicast := msgheader ||| 128,
         msgtype := (msgheader &&& 112) >>> 4,
         msgparam := msgheader &&& 15,
         hopcount := hopcount, group := group }

/-- Embeds `bytearray([payload[4], ..., payload[11]])` (lines 632, 653):
the eight identity bytes, each read raising `IndexError` when out of
range. -/
def readUid (p : List Nat) : Option (List Nat) :=
  p[4]?.bind fun b4 => p[5]?.bind fun b5 => p[6]?.bind fun b6 =>
  p[7]?.bind fun b7 => p[8]?.bind fun b8 => p[9]?.bind fun b9 =>
  p[10]?.bind fun b10 => p[11]?.bind fun b11 =>
  some [b4, b5, b6, b7, b8, b9, b10, b11]

/-- Embeds the `XRF_TYPE_IDACK` branch (lines 630-649): read the identity,
the model code (`payload[13]`) and the version byte (`payload[12]`), then
get-or-create the record and write model, group, hopcount, channel and
fwversion (version byte times 10). -/
def parseIdack (reg : Registry) (currentChannel : Nat) (payload : List Nat)
    (h : RxHeader) : Option Registry :=
  (readUid payload).bind fun uid =>
  payload[13]?.bind fun model =>
  payload[12]?.bind fun versionByte =>
  let uidStr := uidToStr uid
  let device := (lookupReg reg uidStr).getD {}
  let device := { device with
    model := some (modelToString model), group := some h.group,
    hopcount := some h.hopcount, channel := some currentChannel,
    fwversion := some (versionByte * 10) }
  some (setReg reg uidStr device)

/-- Embeds the `XRF_TYPE_REPORTACK` branch (lines 651-676): read the
identity, get-or-create the record, write group and hopcount, and for the
motion-simple / motion-fancy parameters record the timestamp `now`
(Python `time.ctime()`) and the motion variant. -/
def parseReport (reg : Registry) (now : String) (payload : List Nat)
    (h : RxHeader) : Option Registry :=
  (readUid payload).bind fun uid =>
  let uidStr := uidToStr uid
  let device := (lookupReg reg uidStr).getD {}
  let device := { device with group := some h.group, hopcount := some h.hopcount }
  let device :=
    if h.msgparam = 0 then
      { device with lastmotion := some now, lastmotiontype := some "simple" }
    else if h.msgparam = 1 then
      { device with lastmotion := some now, lastmotiontype := some "fancy" }
    else device
  some (setReg reg uidStr device)

/-- Embeds `XrfAPI.parseRxPacket` (lines 608-682): header split, then the
branch on message type.  `XRF_TYPE_ID` (0) and every unsupported type only
log and leave the registry unchanged. -/
def parseRxPacket (reg : Registry) (currentChannel : Nat) (now : String)
    (payload : List Nat) : Option Registry :=
  (parseRxHeader payload).bind fun hdr =>
    if hdr.msgtype = 0 then some reg
    else if hdr.msgtype = 1 then parseIdack reg currentChannel payload hdr
    else if hdr.msgtype = 7 then parseReport reg now payload hdr
    else some reg

/-- Number of payload bytes the message type of an inbound packet makes
`parseRxPacket` read: every packet reads indices 0-3; `IDACK` (type 1)
additionally reads indices 4-13; `REPORTACK` (type 7) reads 4-11. -/
def requiredLen (payload : List Nat) : Nat :=
  match payload[1]? with
  | none => 4
  | some h =>
      let t := (h &&& 112) >>> 4
      if t = 1 then 14 else if t = 7 then 12 else 4

/-- Embeds the body of the dispatch loop `XrfAPI.run` (lines 511-536) for
one inbound frame.  The `L` (76) branch wraps its decoding in
`try/except`, so failures there are contained; the `R` (82) branch calls
`parseRxPacket` with no exception handler, so a `none` from decoding
propagates and terminates the loop (result `none`).  `T` (84), `C` (67)
and unknown tags only print. -/
def dispatchStep (reg : Registry) (currentChannel : Nat) (now : String)
    (pkt : UartFrame) : Option Registry :=
  if pkt.type = 76 then some reg
  else if pkt.type = 82 then parseRxPacket reg currentChannel now pkt.payload
  else if pkt.type = 84 then some reg
  else if pkt.type = 67 then some reg
  else some reg

/-! ## Radio packet encode (xrf.py, `XrfCommsThread.rfGetParameter`, lines 418-439) -/

/-- Embeds `rfGetParameter`: build the radio payload for a get-parameter
request.  Header byte packs type `GET` (2) shifted left 4, the low four
parameter bits, and the unicast flag in bit 7; address is the 8-byte uid
when unicast, else the single group byte; finally `buff[0] = len(buff)-1`. -/
def rfGetParameter (defaultHops : Nat) (param : Nat) (group : Nat)
    (uid : Option (List Nat)) : List Nat :=
  let pkttype := 2
  let unicast : Nat := match uid with | some _ => 1 | none => 0
  let header := ((pkttype <<< 4) ||| (param &&& 15)) ||| (unicast <<< 7)
  let buff := [0, header, defaultHops]
  let buff := match uid with | some u => buff ++ u | none => buff ++ [group]
  buff.set 0 (buff.length - 1)

/-! ## Heap-refined registry model (for aliasing, `getDevices` lines 697-713)

Python dicts are heap objects: the registry maps a uid string to a
reference, `parseRxPacket` mutates the referenced dict in place, and
`getDevices` builds fresh copies.  To state the no-aliasing claim we
refine the registry to an explicit store of addressed records. -/

/-- A heap of device records plus an allocation counter; every address
ever handed out is below `next`. -/
structure Store where
  heap : Nat → Option DeviceRecord
  next : Nat

/-- Dereference an address. -/
def readH (s : Store) (a : Nat) : Option DeviceRecord := s.heap a

/-- Mutate the record object at address `a` in place. -/
def writeH (s : Store) (a : Nat) (r : DeviceRecord) : Store :=
  { s with heap := fun x => if x = a then some r else s.heap x }

/-- Allocate a fresh record object (`dict()` / the `new_device` copies),
returning the new store and the fresh address. -/
def allocH (s : Store) (r : DeviceRecord) : Store × Nat :=
  ({ heap := fun x => if x = s.next then some r else s.heap x,
     next := s.next + 1 }, s.next)

/-- The `discoveredDevices` dict under the heap model: uid string to the
address of its record object. -/
abbrev RegistryH := List (String × Nat)

/-- The `XRF_TYPE_IDACK` branch under the heap model: get-or-create the
record object for the identity (mutating in place when it exists,
allocating and registering a fresh dict otherwise) and write the fields,
exactly as `parseIdack` does at value level. -/
def parseIdackH (s : Store) (reg : RegistryH) (currentChannel : Nat)
    (payload : List Nat) (h : RxHeader) : Option (Store × RegistryH) :=
  (readUid payload).bind fun uid =>
  payload[13]?.bind fun model =>
  payload[12]?.bind fun versionByte =>
  let uidStr := uidToStr uid
  let upd := fun (d : DeviceRecord) => { d with
    model := some (modelToString model), group := some h.group,
    hopcount := some h.hopcount, channel := some currentChannel,
    fwversion := some (versionByte * 10) }
  match lookupReg reg uidStr with
  | some a => some (writeH s a (upd ((readH s a).getD {})), reg)
  | none =>
      let al := allocH s {}
      some (writeH al.1 al.2 (upd {}), reg ++ [(uidStr, al.2)])

/-- The `XRF_TYPE_REPORTACK` branch under the heap model, mirroring
`parseReport`. -/
def parseReportH (s : Store) (reg : RegistryH) (now : String)
    (payload : List Nat) (h : RxHeader) : Option (Store × RegistryH) :=
  (readUid payload).bind fun uid =>
  let uidStr := uidToStr uid
  let upd := fun (d : DeviceRecord) =>
    let d := { d with group := some h.group, hopcount := some h.hopcount }
    if h.msgparam = 0 then
      { d with lastmotion := some now, lastmotiontype := some "simple" }
    else if h.msgparam = 1 then
      { d with lastmotion := some now, lastmotiontype := some "fancy" }
    else d
  match lookupReg reg uidStr with
  | some a => some (writeH s a (upd ((readH s a).getD {})), reg)
  | none =>
      let al := allocH s {}
      some (writeH al.1 al.2 (upd {}), reg ++ [(uidStr, al.2)])

/-- `parseRxPacket` under the heap model. -/
def parseRxPacketH (s : Store) (reg : RegistryH) (currentChannel : Nat)
    (now : String) (payload : List Nat) : Option (Store × RegistryH) :=
  (parseRxHeader payload).bind fun hdr =>
    if hdr.msgtype = 0 then some (s, reg)
    else if hdr.msgtype = 1 then parseIdackH s reg currentChannel payload hdr
    else if hdr.msgtype = 7 then parseReportH s reg now payload hdr
    else some (s, reg)

/-- The store after one `parseRxPacket` dispatch: unchanged when the
decode fails. -/
def storeAfterRx (s : Store) (reg : RegistryH) (currentChannel : Nat)
    (now : String) (payload : List Nat) : Store :=
  match parseRxPacketH s reg currentChannel now payload with
  | some sr => sr.1
  | none => s

/-- Embeds `XrfAPI.getDevices` (lines 697-713) under the heap model: for
every registry entry, read its record and allocate an independent copy
(`new_device = dict(); for key ...: new_device[key] = device[key]`),
returning the snapshot as uid plus address of the fresh copy. -/
def getDevicesH : Store → List (String × Nat) → Store × List (String × Nat)
  | s, [] => (s, [])
  | s, (uid, a) :: rest =>
      let al := allocH s ((readH s a).getD {})
      let res := getDevicesH al.1 rest
      (res.1, (uid, al.2) :: res.2)

/-! ## HTTP-layer interface surface (src/xrf-api.py and class XrfAPI) -/

/-- The methods defined by `class XrfAPI` in src/xrf.py (lines 477-713).
Its base class `threading.Thread` adds thread-control methods
(`start`, `join`, ...), none of them PWM-related. -/
def xrfAPIMethods : List String :=
  ["getInstance", "__init__", "run", "typeToName", "paramToName",
   "modelToString", "parseRxPacket", "setChannel", "IDRequestAll",
   "getDevices"]

/-- The methods defined by `class XrfCommsThread` in src/xrf.py (lines
213-474); the PWM operations live here, under different names. -/
def xrfCommsThreadMethods : List String :=
  ["getInstance", "__init__", "transmit_packet", "new_packet", "parse_buff",
   "run", "setHopCount", "dongleGetUID", "dongleGetInfo", "dongleSetChannel",
   "dongleEnableRX", "dongleEnableMesh", "dongleEnableReport",
   "dongleSetLogLevel", "dongleTestMode", "rfIDRequestAll", "rfGetParameter",
   "rfSetParameter", "rfSetPWMLevel", "rfGetPWMLevel"]

/-- The `XrfAPI` methods invoked by the PWM HTTP handlers
`device_setpwm` (src/xrf-api.py line 66) and `device_getpwm` (line 80):
`XrfAPI.getInstance().setPWMLevels(0, uid, levels)` and
`XrfAPI.getInstance().getPWMLevels(0, uid)`. -/
def httpPwmMethodCalls : List String := ["setPWMLevels", "getPWMLevels"]

/-! ## Concrete packets used by the spec scenarios -/

/-- An `IDACK` payload: length byte, header `0x10` (type 1, param 0),
hop 2, group 1, identity bytes 1-8, version byte 21, model code 0. -/
def idackPayload : List Nat := [13, 16, 2, 1, 1, 2, 3, 4, 5, 6, 7, 8, 21, 0]

/-- A `REPORTACK` payload: length byte, header `0x70` (type 7, param 0 =
motion simple), hop 2, group 1, identity bytes 1-8. -/
def reportackPayload : List Nat := [11, 112, 2, 1, 1, 2, 3, 4, 5, 6, 7, 8]

/-- A registry holding the record the IDACK scenario creates; used to
instantiate the merge theorem at a concrete state. -/
def c7reg : Registry :=
  [("0102030405060708",
    { model := some "Athena", group := some 1, hopcount := some 2,
      channel := some 1, fwversion := some 210 })]

/-- A one-device heap store for instantiating the snapshot theorem. -/
def c8store : Store :=
  { heap := fun a => if a = 0 then some { model := some "Athena" } else none,
    next := 1 }

/-- The matching one-device heap registry. -/
def c8reg : RegistryH := [("0102030405060708", 0)]

/-! ## Framer lemmas -/

/-- Unfolding one byte of `parse_buff`. -/
theorem parse_buff_cons (s : FramerState) (ch : Nat) (rest : List Nat) :
    parse_buff s (ch :: rest)
      = ((parse_buff (parseStep s ch).1 rest).1,
         (parseStep s ch).2 ++ (parse_buff (parseStep s ch).1 rest).2) := rfl

/-- Feeding a concatenation equals feeding the two parts in sequence,
threading the framer state. -/
theorem parse_buff_append (s : FramerState) (a b : List Nat) :
    parse_buff s (a ++ b)
      = ((parse_buff (parse_buff s a).1 b).1,
         (parse_buff s a).2 ++ (parse_buff (parse_buff s a).1 b).2) := by
  induction a generalizing s with
  | nil => simp [parse_buff]
  | cons ch rest ih => simp [parse_buff, ih, List.append_assoc]

/-- Running the framer in the `awaitData` state over exactly the missing
payload bytes completes the frame and returns to `idle`. -/
theorem parse_data_run (bs : List Nat) (t l : Nat) :
    ∀ acc : List Nat, bs ≠ [] → acc.length + bs.length + 2 = l →
      parse_buff (.awaitData t l acc) bs = (.idle, [⟨t, l, acc ++ bs⟩]) := by
  induction bs with
  | nil => intro acc hne _; exact absurd rfl hne
  | cons b rest ih =>
      intro acc _ hlen
      by_cases hr : rest = []
      · subst hr
        have hcond : (((acc ++ [b]).length : Int)) ≥ (l : Int) - 2 := by
          simp only [List.length_append, List.length_cons, List.length_nil]
          simp only [List.length_cons, List.length_nil] at hlen
          omega
        simp only [parse_buff, parseStep]
        rw [if_pos hcond]
        simp [parse_buff]
      · have hrl : 1 ≤ rest.length := List.length_pos.mpr hr
        have hcond : ¬ (((acc ++ [b]).length : Int) ≥ (l : Int) - 2) := by
          simp only [List.length_append, List.length_cons, List.length_nil]
          simp only [List.length_cons] at hlen
          omega
        simp only [parse_buff, parseStep]
        rw [if_neg hcond]
        rw [ih (acc ++ [b]) hr (by simp at hlen ⊢; omega)]
        simp

/-- A single `parseStep` only ever emits a frame straight after appending
a byte, so its payload is nonempty. -/
theorem step_frames_nonempty (s : FramerState) (ch : Nat) (f : UartFrame)
    (hf : f ∈ (parseStep s ch).2) : f.payload ≠ [] := by
  cases s with
  | idle =>
      by_cases h : ch = 82 ∨ ch = 84 ∨ ch = 67 ∨ ch = 76 <;>
        simp [parseStep, h] at hf
  | awaitLen t => simp [parseStep] at hf
  | awaitData t l acc =>
      simp only [parseStep] at hf
      by_cases hcond : (((acc ++ [ch]).length : Int)) ≥ (l : Int) - 2
      · rw [if_pos hcond] at hf
        simp at hf
        subst hf
        simp
      · rw [if_neg hcond] at hf
        simp at hf

/-- Every frame emitted by `parse_buff`, from any state, has a nonempty
payload. -/
theorem parse_buff_frames_nonempty (bs : List Nat) :
    ∀ (s : FramerState) (f : UartFrame),
      f ∈ (parse_buff s bs).2 → f.payload ≠ [] := by
  induction bs with
  | nil => intro s f hf; simp [parse_buff] at hf
  | cons ch rest ih =>
      intro s f hf
      simp only [parse_buff, List.mem_append] at hf
      rcases hf with h | h
      · exact step_frames_nonempty s ch f h
      · exact ih _ f h

/-! ## Claim theorems - Transport Framer -/

/-- C5: for every byte sequence and every way of splitting it into chunks,
feeding the chunks to the framer one call after another (state retained
between calls) emits exactly the same frames in the same order as feeding
the whole sequence in a single call. -/
theorem c5_chunk_boundary_independence (chunks : List (List Nat)) (s : FramerState) :
    parseChunks s chunks = parse_buff s chunks.flatten := by
  induction chunks generalizing s with
  | nil => simp [parseChunks, parse_buff]
  | cons c cs ih => simp [parseChunks, List.flatten_cons, parse_buff_append, ih]

/-- C10: every frame the framer emits carries at least one payload byte;
in particular a frame whose declared length byte is exactly 2 is not
emitted when its header completes - the framer waits for one further byte
and emits the frame with that byte included in its payload. -/
theorem c10_emitted_frames_nonempty :
    (∀ (s : FramerState) (bs : List Nat) (f : UartFrame),
        f ∈ (parse_buff s bs).2 → f.payload ≠ [])
  ∧ (∀ t b : Nat, (t = 82 ∨ t = 84 ∨ t = 67 ∨ t = 76) →
      (parse_buff .idle [t, 2]).2 = []
        ∧ parse_buff .idle [t, 2, b] = (.idle, [⟨t, 2, [b]⟩])) := by
  constructor
  · exact fun s bs f h => parse_buff_frames_nonempty bs s f h
  · intro t b ht
    rcases ht with rfl | rfl | rfl | rfl <;>
      exact ⟨by decide, by simp [parse_buff, parseStep]⟩

/-- C10 witness: a frame with length byte 2 is not emitted after its
header, and arrives carrying the next stream byte (7) as payload. -/
theorem c10_witness :
    (parse_buff .idle [82, 2]).2 = []
      ∧ parse_buff .idle [82, 2, 7] = (.idle, [⟨82, 2, [7]⟩]) :=
  c10_emitted_frames_nonempty.2 82 7 (Or.inl rfl)

/-- C9 counterexample: the stray byte 0 followed by the complete
well-formed frame `[82, 2]` (length byte 2, empty payload) produces zero
emitted frames, not exactly one as the claim states - the framer is still
waiting in the payload state. -/
theorem c9_counterexample :
    parse_buff .idle [0, 82, 2] = (.awaitData 82 2 [], []) := by decide

/-- C9 (amended): a stray non-tag byte followed by one complete
well-formed frame with a nonempty payload yields exactly one emitted
frame, the well-formed one; the stray byte is silently discarded. -/
theorem c9_amended_stray_then_frame (s t : Nat) (payload : List Nat)
    (hs : ¬(s = 82 ∨ s = 84 ∨ s = 67 ∨ s = 76))
    (ht : t = 82 ∨ t = 84 ∨ t = 67 ∨ t = 76)
    (hp : payload ≠ []) (hwire : payload.length + 2 ≤ 255) :
    parse_buff .idle (s :: t :: (payload.length + 2) :: payload)
      = (.idle, [⟨t, payload.length + 2, payload⟩]) := by
  have h1 : parseStep .idle s = (.idle, []) := by simp [parseStep, hs]
  have h2 : parseStep .idle t = (.awaitLen t, []) := by simp [parseStep, ht]
  have h3 : parseStep (FramerState.awaitLen t) (payload.length + 2)
      = (.awaitData t (payload.length + 2) [], []) := rfl
  rw [parse_buff_cons, h1]
  dsimp only
  rw [parse_buff_cons, h2]
  dsimp only
  rw [parse_buff_cons, h3]
  dsimp only
  rw [parse_data_run payload t (payload.length + 2) [] hp (by simp)]
  simp

/-- C9 witness: stray byte 0, then the valid frame `[82, 3, 5]`, emits
exactly that frame. -/
theorem c9_witness :
    parse_buff .idle [0, 82, 3, 5] = (.idle, [⟨82, 3, [5]⟩]) :=
  c9_amended_stray_then_frame 0 82 [5] (by decide) (Or.inl rfl) (by decide)
    (by decide)

/-- C3 counterexample: for the stream `[82, 0, 82, 3, 5]` - a frame with
declared length 0 followed by the well-formed frame `[82, 3, 5]` - the
framer emits the malformed frame (with the next tag byte 82 swallowed as
its payload) and never emits the well-formed frame, contradicting the
claim that the malformed frame is dropped without emitting and the
subsequent frame emitted exactly once. -/
theorem c3_counterexample :
    parse_buff .idle [82, 0, 82, 3, 5] = (.idle, [⟨82, 0, [82]⟩]) := by decide

/-- C3 (amended): a declared length byte less than 2 makes the framer emit
a frame carrying the single following byte as payload (the completion test
`len >= length - 2` is already true after one append) and return to the
tag-awaiting state; a well-formed frame with at least one payload byte
starting after that swallowed byte is then emitted exactly once (a
zero-payload frame would not be emitted at all - see C10). -/
theorem c3_amended_short_length (t l b t2 : Nat) (payload : List Nat)
    (ht : t = 82 ∨ t = 84 ∨ t = 67 ∨ t = 76) (hl : l < 2)
    (ht2 : t2 = 82 ∨ t2 = 84 ∨ t2 = 67 ∨ t2 = 76)
    (hp : payload ≠ []) (hwire : payload.length + 2 ≤ 255) :
    parse_buff .idle (t :: l :: b :: t2 :: (payload.length + 2) :: payload)
      = (.idle, [⟨t, l, [b]⟩, ⟨t2, payload.length + 2, payload⟩]) := by
  have h1 : parseStep .idle t = (.awaitLen t, []) := by simp [parseStep, ht]
  have hcond : (((([] : List Nat) ++ [b]).length : Int)) ≥ (l : Int) - 2 := by
    simp
    omega
  have hstepl : parseStep (FramerState.awaitLen t) l = (.awaitData t l [], []) := rfl
  have hb : parseStep (FramerState.awaitData t l []) b = (.idle, [⟨t, l, [b]⟩]) := by
    simp only [parseStep]
    rw [if_pos hcond]
    simp
  have h2 : parseStep .idle t2 = (.awaitLen t2, []) := by simp [parseStep, ht2]
  have h3 : parseStep (FramerState.awaitLen t2) (payload.length + 2)
      = (.awaitData t2 (payload.length + 2) [], []) := rfl
  rw [parse_buff_cons, h1]
  dsimp only
  rw [parse_buff_cons, hstepl]
  dsimp only
  rw [parse_buff_cons, hb]
  dsimp only
  rw [parse_buff_cons, h2]
  dsimp only
  rw [parse_buff_cons, h3]
  dsimp only
  rw [parse_data_run payload t2 (payload.length + 2) [] hp (by simp)]
  simp

/-- C3 witness: length byte 0 after tag 82, stray payload byte 7, then
the valid frame `[84, 3, 5]`. -/
theorem c3_witness :
    parse_buff .idle [82, 0, 7, 84, 3, 5]
      = (.idle, [⟨82, 0, [7]⟩, ⟨84, 3, [5]⟩]) :=
  c3_amended_short_length 82 0 7 84 [5] (Or.inl rfl) (by decide)
    (Or.inr (Or.inl rfl)) (by decide) (by decide)

/-! ## Decode lemmas -/

/-- A bind is `none` whenever the continuation is constantly `none`. -/
theorem bind_eq_none_of {α β : Type} (o : Option α) (f : α → Option β)
    (h : ∀ a, f a = none) : o.bind f = none := by cases o <;> simp [h]

/-- Reducing a bind of a known `some`. -/
theorem some_bind_eq {α β : Type} (a : α) (f : α → Option β) :
    (some a).bind f = f a := rfl

/-- Reading the eight identity bytes fails on a payload shorter than 12
bytes. -/
theorem readUid_short (p : List Nat) (h : p.length < 12) : readUid p = none := by
  have h11 : p[11]? = none := List.getElem?_eq_none (by omega)
  unfold readUid
  refine bind_eq_none_of _ _ fun b4 => ?_
  refine bind_eq_none_of _ _ fun b5 => ?_
  refine bind_eq_none_of _ _ fun b6 => ?_
  refine bind_eq_none_of _ _ fun b7 => ?_
  refine bind_eq_none_of _ _ fun b8 => ?_
  refine bind_eq_none_of _ _ fun b9 => ?_
  refine bind_eq_none_of _ _ fun b10 => ?_
  rw [h11]
  rfl

/-- The header split fails on a payload shorter than 4 bytes. -/
theorem parseRxHeader_short (p : List Nat) (h : p.length < 4) :
    parseRxHeader p = none := by
  have h3 : p[3]? = none := List.getElem?_eq_none (by omega)
  unfold parseRxHeader
  refine bind_eq_none_of _ _ fun a => ?_
  refine bind_eq_none_of _ _ fun b => ?_
  refine bind_eq_none_of _ _ fun c => ?_
  rw [h3]
  rfl

/-- Decoding any payload shorter than the fields its message type makes
`parseRxPacket` read raises an uncaught index error, modelled `none`. -/
theorem parseRx_short (reg : Registry) (ch : Nat) (now : String) (p : List Nat)
    (h : p.length < requiredLen p) : parseRxPacket reg ch now p = none := by
  by_cases h4 : p.length < 4
  · unfold parseRxPacket
    rw [parseRxHeader_short p h4]
    rfl
  · push_neg at h4
    obtain ⟨b0, h0⟩ : ∃ x, p[0]? = some x :=
      ⟨_, List.getElem?_eq_getElem (by omega)⟩
    obtain ⟨hd, h1⟩ : ∃ x, p[1]? = some x :=
      ⟨_, List.getElem?_eq_getElem (by omega)⟩
    obtain ⟨b2, h2⟩ : ∃ x, p[2]? = some x :=
      ⟨_, List.getElem?_eq_getElem (by omega)⟩
    obtain ⟨b3, h3⟩ : ∃ x, p[3]? = some x :=
      ⟨_, List.getElem?_eq_getElem (by omega)⟩
    have hh : parseRxHeader p = some
        { length := b0, msgheader := hd,
          unicast := hd ||| 128, msgtype := (hd &&& 112) >>> 4,
          msgparam := hd &&& 15, hopcount := b2, group := b3 } := by
      unfold parseRxHeader
      rw [h0, some_bind_eq, h1, some_bind_eq, h2, some_bind_eq, h3, some_bind_eq]
    unfold requiredLen at h
    rw [h1] at h
    dsimp only at h
    unfold parseRxPacket
    rw [hh, some_bind_eq]
    dsimp only
    by_cases ht1 : (hd &&& 112) >>> 4 = 1
    · rw [if_pos ht1] at h
      rw [ht1]
      rw [if_neg (by omega), if_pos rfl]
      have h13 : p[13]? = none := List.getElem?_eq_none (by omega)
      unfold parseIdack
      refine bind_eq_none_of _ _ fun uid => ?_
      rw [h13]
      rfl
    · by_cases ht7 : (hd &&& 112) >>> 4 = 7
      · rw [if_neg ht1, if_pos ht7] at h
        rw [ht7]
        rw [if_neg (by omega), if_neg (by omega), if_pos rfl]
        unfold parseReport
        rw [readUid_short p (by omega)]
        rfl
      · rw [if_neg ht1, if_neg ht7] at h
        omega

/-- Looking up the key just stored finds the stored record. -/
theorem lookupReg_setReg_self {α : Type} (reg : List (String × α)) (k : String)
    (v : α) : lookupReg (setReg reg k v) k = some v := by
  induction reg with
  | nil => simp [setReg, lookupReg]
  | cons p rest ih =>
      obtain ⟨k2, w⟩ := p
      by_cases hk : k2 = k
      · subst hk
        simp [setReg, lookupReg]
      · simp [setReg, lookupReg, hk, ih]

/-! ## Claim theorems - codec, dispatch, registry -/

/-- C2 counterexample: a 12-byte IDACK payload (its message type implies
14 bytes) does not yield a contained MalformedPacket outcome: decoding
raises an uncaught index error, and because `XrfAPI.run` has no handler
around `parseRxPacket`, the dispatch loop is terminated (`none`),
contradicting the claimed containment. -/
theorem c2_counterexample :
    dispatchStep [] 1 "t" ⟨82, 14, [11, 16, 2, 1, 1, 2, 3, 4, 5, 6, 7, 8]⟩
      = none := by decide

/-- C2 (amended): for every inbound radio payload shorter than the fields
its message type implies, decoding fails with an uncaught IndexError (no
MalformedPacket signalling exists), and the error is not contained: the
dispatch step propagates it, terminating the Protocol Engine dispatch
loop. -/
theorem c2_amended_short_payload_terminates (reg : Registry) (ch : Nat)
    (now : String) (pkt : UartFrame) (htype : pkt.type = 82)
    (hshort : pkt.payload.length < requiredLen pkt.payload) :
    dispatchStep reg ch now pkt = none := by
  unfold dispatchStep
  rw [htype]
  rw [if_neg (by omega), if_pos rfl]
  exact parseRx_short reg ch now pkt.payload hshort

/-- C2 witness: a 9-byte IDACK payload terminates the dispatch loop. -/
theorem c2_witness :
    dispatchStep [] 1 "t" ⟨82, 11, [9, 16, 2, 1, 1, 2, 3, 4, 5]⟩ = none :=
  c2_amended_short_payload_terminates [] 1 "t"
    ⟨82, 11, [9, 16, 2, 1, 1, 2, 3, 4, 5]⟩ rfl (by decide)

/-- C4: encoding a get-parameter request for param 5 addressed to group
255 and decoding the produced bytes recovers type GET (2), param 5, hop
count and group exactly, but the decoded unicast field is
`0x25 | 0x80 = 165` - header OR 128 (xrf.py line 614) - which is truthy,
not the encoded broadcast flag 0: the round trip loses the unicast flag
because the decoder uses `|` where `&` was intended (compare
`IsUnicastToMe`, line 178, which masks with `&`). -/
theorem c4_encode_decode_get :
    parseRxHeader (rfGetParameter 5 5 255 none)
      = some { length := 3, msgheader := 37, unicast := 165, msgtype := 2,
               msgparam := 5, hopcount := 5, group := 255 } := by decide

/-- C6: dispatching the IDACK payload with identity bytes 1-8, hop 2,
group 1, version byte 21 and model code 0 into an empty registry creates
exactly one record, keyed by the lowercase hex string of the identity,
with model "Athena", group 1, hopcount 2, the current channel, and
fwversion 210. -/
theorem c6_idack_creates_record :
    parseRxPacket [] 1 "t0" idackPayload
      = some [("0102030405060708",
          { model := some "Athena", group := some 1, hopcount := some 2,
            channel := some 1, fwversion := some 210 })] := by decide

/-- C7: processing a REPORTACK with the motion-simple parameter for an
identity that already has a record merges into that record: group,
hopcount and the last-motion timestamp with variant "simple" are written,
and every other field - in particular the model set by an earlier IDACK -
keeps its prior value; the record is updated in place, not replaced. -/
theorem c7_reportack_merges (reg : Registry) (rec : DeviceRecord) (ch : Nat)
    (now : String) (h : lookupReg reg "0102030405060708" = some rec) :
    parseRxPacket reg ch now reportackPayload
        = some (setReg reg "0102030405060708"
            { rec with
              group := some 1, hopcount := some 2,
              lastmotion := some now, lastmotiontype := some "simple" })
      ∧ lookupReg (setReg reg "0102030405060708"
            { rec with
              group := some 1, hopcount := some 2,
              lastmotion := some now, lastmotiontype := some "simple" })
          "0102030405060708"
        = some
            { rec with
              group := some 1, hopcount := some 2,
              lastmotion := some now, lastmotiontype := some "simple" } := by
  have hbase : parseRxPacket reg ch now reportackPayload
      = some (setReg reg "0102030405060708"
          { (lookupReg reg "0102030405060708").getD {} with
            group := some 1, hopcount := some 2,
            lastmotion := some now, lastmotiontype := some "simple" }) := rfl
  rw [h] at hbase
  exact ⟨hbase, lookupReg_setReg_self reg _ _⟩

/-- C7 witness: merging a motion report into the record created by the
IDACK scenario preserves its model, channel and firmware version. -/
theorem c7_witness :
    parseRxPacket c7reg 1 "t1" reportackPayload
        = some (setReg c7reg "0102030405060708"
            { model := some "Athena", group := some 1, hopcount := some 2,
              channel := some 1, fwversion := some 210,
              lastmotion := some "t1", lastmotiontype := some "simple" })
      ∧ lookupReg (setReg c7reg "0102030405060708"
            { model := some "Athena", group := some 1, hopcount := some 2,
              channel := some 1, fwversion := some 210,
              lastmotion := some "t1", lastmotiontype := some "simple" })
          "0102030405060708"
        = some
            { model := some "Athena", group := some 1, hopcount := some 2,
              channel := some 1, fwversion := some 210,
              lastmotion := some "t1", lastmotiontype := some "simple" } :=
  c7_reportack_merges c7reg
    { model := some "Athena", group := some 1, hopcount := some 2,
      channel := some 1, fwversion := some 210 } 1 "t1" (by decide)

/-- C1: the PWM HTTP handlers `device_setpwm` and `device_getpwm`
(src/xrf-api.py) call `setPWMLevels` and `getPWMLevels` on the `XrfAPI`
singleton, but `class XrfAPI` defines neither method - the PWM operations
exist only on `XrfCommsThread` under the names `rfSetPWMLevel` and
`rfGetPWMLevel` and are not delegated - so both handlers raise
`AttributeError` for every known device. -/
theorem c1_pwm_methods_missing :
    ("setPWMLevels" ∈ httpPwmMethodCalls ∧ "getPWMLevels" ∈ httpPwmMethodCalls)
    ∧ ("setPWMLevels" ∉ xrfAPIMethods ∧ "getPWMLevels" ∉ xrfAPIMethods)
    ∧ ("rfSetPWMLevel" ∈ xrfCommsThreadMethods
        ∧ "rfGetPWMLevel" ∈ xrfCommsThreadMethods) := by decide

/-! ## Heap model lemmas (snapshot independence) -/

/-- Building the snapshot advances the allocator by one per registry
entry. -/
theorem getDevicesH_next (reg : List (String × Nat)) :
    ∀ s : Store, (getDevicesH s reg).1.next = s.next + reg.length := by
  induction reg with
  | nil => intro s; rfl
  | cons q rest ih =>
      intro s
      obtain ⟨uid, a⟩ := q
      have h1 : (getDevicesH s ((uid, a) :: rest)).1
          = (getDevicesH (allocH s ((readH s a).getD {})).1 rest).1 := rfl
      rw [h1, ih]
      have h2 : (allocH s ((readH s a).getD {})).1.next = s.next + 1 := rfl
      rw [h2]
      simp only [List.length_cons]
      omega

/-- Every snapshot entry points at an address allocated during the
snapshot: at or above the pre-snapshot allocator, below the
post-snapshot allocator. -/
theorem getDevicesH_snap_bounds (reg : List (String × Nat)) :
    ∀ (s : Store), ∀ ua ∈ (getDevicesH s reg).2,
      s.next ≤ ua.2 ∧ ua.2 < s.next + reg.length := by
  induction reg with
  | nil => intro s ua h; simp [getDevicesH] at h
  | cons q rest ih =>
      intro s ua h
      obtain ⟨uid, a⟩ := q
      have h1 : (getDevicesH s ((uid, a) :: rest)).2
          = (uid, s.next) :: (getDevicesH (allocH s ((readH s a).getD {})).1 rest).2 := rfl
      rw [h1] at h
      rcases List.mem_cons.mp h with rfl | h2
      · exact ⟨Nat.le_refl _, by simp only [List.length_cons]; omega⟩
      · have hb := ih (allocH s ((readH s a).getD {})).1 ua h2
        have hn : (allocH s ((readH s a).getD {})).1.next = s.next + 1 := rfl
        rw [hn] at hb
        constructor <;> [omega; (simp only [List.length_cons]; omega)]

/-- A successful `lookupReg` pairs the key with a registry entry. -/
theorem lookupReg_mem {α : Type} (reg : List (String × α)) (k : String) (a : α)
    (h : lookupReg reg k = some a) : (k, a) ∈ reg := by
  induction reg with
  | nil => simp [lookupReg] at h
  | cons q rest ih =>
      obtain ⟨k2, w⟩ := q
      by_cases hk : k2 = k
      · subst hk
        simp [lookupReg] at h
        subst h
        exact List.mem_cons_self _ _
      · simp only [lookupReg, if_neg hk] at h
        exact List.mem_cons_of_mem _ (ih h)

/-- The IDACK upsert writes only to the registered address of the identity
or to a freshly allocated one, never to an address below the allocator
that is not in the registry. -/
theorem parseIdackH_frame (s : Store) (reg : RegistryH) (ch : Nat)
    (p : List Nat) (hd : RxHeader) (sr : Store × RegistryH)
    (hres : parseIdackH s reg ch p hd = some sr)
    (b : Nat) (hb : ∀ q ∈ reg, q.2 ≠ b) (hlt : b < s.next) :
    readH sr.1 b = readH s b := by
  unfold parseIdackH at hres
  rcases hu : readUid p with _ | uid
  · rw [hu] at hres; simp at hres
  · rw [hu] at hres
    simp only [some_bind_eq] at hres
    rcases h13 : p[13]? with _ | model
    · rw [h13] at hres; simp at hres
    · rw [h13] at hres
      simp only [some_bind_eq] at hres
      rcases h12 : p[12]? with _ | ver
      · rw [h12] at hres; simp at hres
      · rw [h12] at hres
        simp only [some_bind_eq] at hres
        rcases hlk : lookupReg reg (uidToStr uid) with _ | a
        · rw [hlk] at hres
          dsimp only at hres
          injection hres with h2
          subst h2
          have hne : b ≠ s.next := Nat.ne_of_lt hlt
          simp [readH, writeH, allocH, hne]
        · rw [hlk] at hres
          dsimp only at hres
          injection hres with h2
          subst h2
          have hmem := lookupReg_mem reg _ a hlk
          have hba : b ≠ a := Ne.symm (hb _ hmem)
          simp [readH, writeH, hba]

/-- The REPORTACK upsert has the same write locality. -/
theorem parseReportH_frame (s : Store) (reg : RegistryH) (now : String)
    (p : List Nat) (hd : RxHeader) (sr : Store × RegistryH)
    (hres : parseReportH s reg now p hd = some sr)
    (b : Nat) (hb : ∀ q ∈ reg, q.2 ≠ b) (hlt : b < s.next) :
    readH sr.1 b = readH s b := by
  unfold parseReportH at hres
  rcases hu : readUid p with _ | uid
  · rw [hu] at hres; simp at hres
  · rw [hu] at hres
    simp only [some_bind_eq] at hres
    rcases hlk : lookupReg reg (uidToStr uid) with _ | a
    · rw [hlk] at hres
      dsimp only at hres
      injection hres with h2
      subst h2
      have hne : b ≠ s.next := Nat.ne_of_lt hlt
      simp [readH, writeH, allocH, hne]
    · rw [hlk] at hres
      dsimp only at hres
      injection hres with h2
      subst h2
      have hmem := lookupReg_mem reg _ a hlk
      have hba : b ≠ a := Ne.symm (hb _ hmem)
      simp [readH, writeH, hba]

/-- Frame property of one dispatch: processing any inbound payload leaves
every heap cell unchanged whose address is below the allocator and not
registered. -/
theorem storeAfterRx_frame (s : Store) (reg : RegistryH) (ch : Nat)
    (now : String) (p : List Nat) (b : Nat)
    (hb : ∀ q ∈ reg, q.2 ≠ b) (hlt : b < s.next) :
    readH (storeAfterRx s reg ch now p) b = readH s b := by
  unfold storeAfterRx
  rcases hres : parseRxPacketH s reg ch now p with _ | sr
  · rfl
  · show readH sr.1 b = readH s b
    unfold parseRxPacketH at hres
    rcases hh : parseRxHeader p with _ | hdr
    · rw [hh] at hres; simp at hres
    · rw [hh] at hres
      simp only [some_bind_eq] at hres
      by_cases h0 : hdr.msgtype = 0
      · rw [if_pos h0] at hres
        injection hres with h2
        subst h2
        rfl
      · rw [if_neg h0] at hres
        by_cases h1 : hdr.msgtype = 1
        · rw [if_pos h1] at hres
          exact parseIdackH_frame s reg ch p hdr sr hres b hb hlt
        · rw [if_neg h1] at hres
          by_cases h7 : hdr.msgtype = 7
          · rw [if_pos h7] at hres
            exact parseReportH_frame s reg now p hdr sr hres b hb hlt
          · rw [if_neg h7] at hres
            injection hres with h2
            subst h2
            rfl

/-- C8: `getDevices` returns an independent copy - every snapshot entry
points at a record object freshly allocated by the snapshot, so
processing any packet afterwards (the only registry mutation), whether it
updates an existing record in place or allocates a new one, never changes
any record the snapshot returned. -/
theorem c8_snapshot_independent (s : Store) (reg : RegistryH) (ch : Nat)
    (now : String) (p : List Nat) (hwf : ∀ q ∈ reg, q.2 < s.next) :
    ∀ ua ∈ (getDevicesH s reg).2,
      readH (storeAfterRx (getDevicesH s reg).1 reg ch now p) ua.2
        = readH (getDevicesH s reg).1 ua.2 := by
  intro ua hua
  have hbounds := getDevicesH_snap_bounds reg s ua hua
  have hnext := getDevicesH_next reg s
  apply storeAfterRx_frame
  · intro q hq
    have := hwf q hq
    omega
  · omega

/-- C8 witness: after snapshotting a one-device registry, dispatching the
IDACK scenario packet (which rewrites that device's registered record)
leaves the snapshot copy unchanged. -/
theorem c8_witness :
    readH (storeAfterRx (getDevicesH c8store c8reg).1 c8reg 1 "t" idackPayload) 1
      = readH (getDevicesH c8store c8reg).1 1 :=
  c8_snapshot_independent c8store c8reg 1 "t" idackPayload (by decide)
    ("0102030405060708", 1) (by decide)

end Xrf
